import Mathlib

deriving instance DecidableEq for Except

/-!
Verification of the per-sample QC computation and cross-sample aggregation
of `rnaseqlib` (`src/rnaseqlib/QualityControl.py`), as a shallow embedding
in Lean 4.

Python runtime errors that the embedded code can raise are reified as an
explicit error type; machine-level concerns do not arise (all counts are
small non-negative integers, ratios are exact rationals).
-/

namespace RnaSeqLib

/-- Errors that the embedded Python code can raise.  `systemExit` models
`sys.exit(code)`; `unboundLocalError` models reading a function-local
variable before its first assignment (Python 2 `UnboundLocalError`, a
subclass of `NameError`); `nameError` models a failed global-name lookup;
`valueError` models `ValueError` (e.g. `max()` of an empty sequence, or a
`pysam` fetch on an unknown reference); `readFormatError` models a parse
failure of the FASTQ read file. -/
inductive PyError where
  | systemExit (code : Nat)
  | unboundLocalError (localName : String)
  | nameError (globalName : String)
  | valueError (msg : String)
  | readFormatError
deriving DecidableEq

/-- A file system, modelled as an association of paths to file contents.
Directories are not tracked (the embedded code only ever checks and
writes regular files). -/
abbrev FS := List (String × String)

/-- Model of `os.path.isfile`. -/
def isfile (fs : FS) (p : String) : Bool :=
  fs.any (fun e => e.1 = p)

/-- Writing a file: overwrites any existing entry at the same path. -/
def fsWrite (fs : FS) (p c : String) : FS :=
  (p, c) :: fs.filter (fun e => e.1 ≠ p)

/-- Modelled from the spec: `utils.make_dir` (module `rnaseqlib.utils`,
not under `src/`) creates the directory if it is missing.  Our file
system tracks file contents only, so directory creation changes
nothing observable here. -/
def make_dir (fs : FS) (_dirname : String) : FS := fs

/-- One BAM alignment record: a read identifier (`read.qname`) and the
name of the reference sequence it is aligned to. -/
structure BamRead where
  qname : String
  rname : String
deriving DecidableEq

/-- A BAM alignment file: its header's reference-sequence list and its
alignment records, in file order. -/
structure BamFile where
  references : List String
  reads : List BamRead
deriving DecidableEq

/-- Model of `pysam.Samfile.fetch(reference=r, start=None, end=None)` per
the spec's external-interface description (§6): with no start/end bound
it yields every record of the whole contig, i.e. every record whose
reference name equals `r`, in file order; an unknown reference name
raises `ValueError`. -/
def fetch (bam : BamFile) (reference : String) : Except PyError (List BamRead) :=
  if reference ∈ bam.references then
    .ok (bam.reads.filter (fun r => r.rname = reference))
  else
    .error (.valueError "invalid reference")

/-- One FASTQ entry: the 4 lines of a fixed record (header, sequence,
secondary header, quality). -/
structure FastqEntry where
  header1 : String
  seq : String
  header2 : String
  qual : String
deriving DecidableEq

/-- Modelled from the spec: `fastq_utils.get_fastq_entries` (module
`rnaseqlib.fastq_utils`, not under `src/`) parses the read file as a
lazy sequence of fixed 4-line records (header, sequence, secondary
header, quality) and fails with a ReadFormatError when the file is not
a well-formed sequence of such records (here: a trailing group of 1-3
lines).  `fastq_utils.read_open_fastq` followed by
`fastq_utils.read_fastq` (also not under `src/`) yields the same
sequence of 4-tuples and is modelled by this same reader. -/
def get_fastq_entries : List String → Except PyError (List FastqEntry)
  | [] => .ok []
  | h1 :: s :: h2 :: q :: rest =>
    match get_fastq_entries rest with
    | .error e => .error e
    | .ok es => .ok (⟨h1, s, h2, q⟩ :: es)
  | _ => .error .readFormatError

/-- The sample attached to a `QualityControl` object: its label, the
contents of its reads file (`sample.reads_filename`, as lines) and the
contents of its alignment file (`sample.bam_filename`). -/
structure Sample where
  label : String
  reads_lines : List String
  bam : BamFile
deriving DecidableEq

/-- The mutable state of a `QualityControl` object (`__init__`, lines
20-44).  The `pipeline` argument is abstracted to the one value this
class reads from it, `pipeline.pipeline_outdirs["qc"]` (`qc_outdir`).
`qc_results` is a Python dict from field name to count, modelled as an
association list with distinct keys. -/
structure QCState where
  sample : Sample
  qc_outdir : String
  qc_filename : Option String
  qc_header : List String
  qc_results : List (String × Nat)
  num_reads : Option Nat
  num_mapped : Option Nat
  num_ribo : Option Nat
  num_mito : Option Nat
  num_intronic : Option Nat
  num_intergenic : Option Nat
deriving DecidableEq

/-- A fresh `QualityControl` object for a sample (`__init__`). -/
def initQC (sample : Sample) (qc_outdir : String) : QCState :=
  { sample := sample
    qc_outdir := qc_outdir
    qc_filename := none
    qc_header := []
    qc_results := []
    num_reads := none
    num_mapped := none
    num_ribo := none
    num_mito := none
    num_intronic := none
    num_intergenic := none }

namespace QualityControl

/-- Embeds `QualityControl.get_num_reads` (lines 47-56): iterate the
FASTQ entries counting them, store the count into `self.num_reads` and
return it.  A parse failure of the read file propagates. -/
def get_num_reads (st : QCState) : Except PyError (Nat × QCState) :=
  match get_fastq_entries st.sample.reads_lines with
  | .error e => .error e
  | .ok fastq_entries =>
    let num_reads := fastq_entries.foldl (fun n _ => n + 1) 0
    .ok (num_reads, { st with num_reads := some num_reads })

/-- Insertion of a key into the `bam_read_ids` dict (`bam_read_ids[read.qname] = 1`,
line 68).  All stored values are `1`, so the dict is modelled by its key
list; inserting an already-present key changes nothing, a new key is
appended. -/
def dict_insert (d : List String) (k : String) : List String :=
  if k ∈ d then d else d ++ [k]

/-- Embeds `QualityControl.get_num_mapped` (lines 59-70): iterate all BAM
records keying a dict on `read.qname` (so duplicates are not counted
twice), store `len(bam_read_ids.keys())` into `self.num_mapped` and
return it. -/
def get_num_mapped (st : QCState) : Nat × QCState :=
  let bam_read_ids := st.sample.bam.reads.foldl (fun d r => dict_insert d r.qname) []
  let num_mapped := bam_read_ids.length
  (num_mapped, { st with num_mapped := some num_mapped })

/-- Embeds `QualityControl.get_num_ribo` (lines 81-98): fetch every
record on the `chr_ribo` reference (whole contig, no start/end bound)
and count the records in a local accumulator.  No object field is
assigned; the count is only returned. -/
def get_num_ribo (st : QCState) (chr_ribo : String) : Except PyError (Nat × QCState) :=
  match fetch st.sample.bam chr_ribo with
  | .error e => .error e
  | .ok ribo_reads =>
    .ok (ribo_reads.foldl (fun n _ => n + 1) 0, st)

/-- Assignment `d[k] = v` on the `qc_results` Python dict: replace the
value if the key is present, otherwise add the pair. -/
def dinsert (d : List (String × Nat)) (k : String) (v : Nat) : List (String × Nat) :=
  if d.any (fun p => p.1 = k) then
    d.map (fun p => if p.1 = k then (k, v) else p)
  else
    d ++ [(k, v)]

/-- Embeds `QualityControl.compute_qc` (lines 105-121): run
`get_num_reads`, `get_num_mapped` and `get_num_ribo` (with the default
region `"chrRibo"`) in that order, re-storing each returned count into
`self.num_reads` / `self.num_mapped` / `self.num_ribo`, set
`self.qc_header` to the literal field list and write the three counts
into the `self.qc_results` dict, returning that dict.  Any sub-count
failure propagates unchanged. -/
def compute_qc (st : QCState) : Except PyError (List (String × Nat) × QCState) :=
  match get_num_reads st with
  | .error e => .error e
  | .ok (num_reads, st1) =>
    let st1' := { st1 with num_reads := some num_reads }
    let (num_mapped, st2) := get_num_mapped st1'
    let st2' := { st2 with num_mapped := some num_mapped }
    match get_num_ribo st2' "chrRibo" with
    | .error e => .error e
    | .ok (num_ribo, st3) =>
      let st3' := { st3 with num_ribo := some num_ribo }
      let st4 := { st3' with qc_header := ["num_reads", "num_mapped", "num_ribo"] }
      let res := dinsert (dinsert (dinsert st4.qc_results "num_reads" num_reads)
                    "num_mapped" num_mapped) "num_ribo" num_ribo
      .ok (res, { st4 with qc_results := res })

/-- Rendering of one optional count in the per-sample QC table (pandas
writes a missing value as an empty cell). -/
def optNatStr : Option Nat → String
  | none => ""
  | some n => toString n

/-- Rendering of the single-row per-sample QC table written by
`pandas.DataFrame([qc_entry]).to_csv(..., cols=qc_headers, sep="\t",
index=False)` (lines 138-147): a tab-separated header line in the
`qc_headers` order followed by one tab-separated data row, no index
column. -/
def renderQCRow (st : QCState) : String :=
  "num_reads\tnum_mapped\tnum_ribo\n"
    ++ optNatStr st.num_reads ++ "\t" ++ optNatStr st.num_mapped ++ "\t"
    ++ optNatStr st.num_ribo ++ "\n"

/-- Embeds `QualityControl.output_qc` (lines 124-147).  The sample output
directory is `os.path.join(self.qc_outdir, self.sample.label)`;
`self.qc_filename` is set to `<dir>/<label>.qc.txt`.  When a file
already exists at that path the skip branch's `print` (line 135)
formats the bare name `qc_filename` — which is neither a local nor a
global of the module (the attribute is `self.qc_filename`) — so Python
raises `NameError: global name 'qc_filename' is not defined` before
anything is written and before `return None` is reached.  Otherwise the
single-row table is written and the function falls off its end,
returning `None`. -/
def output_qc (st : QCState) (fs : FS) : Except PyError (Option String) × QCState × FS :=
  let sample_outdir := st.qc_outdir ++ "/" ++ st.sample.label
  let fs1 := make_dir fs sample_outdir
  let path := sample_outdir ++ "/" ++ st.sample.label ++ ".qc.txt"
  let st1 := { st with qc_filename := some path }
  if isfile fs1 path then
    (.error (.nameError "qc_filename"), st1, fs1)
  else
    (.ok none, st1, fsWrite fs1 path (renderQCRow st1))

/-- The value of `num_n_bases[n]` after the scanning loop of
`get_seq_cycle_profile` (lines 167-179): the number of processed
entries whose sequence has an `N` at position `n` (the inner loop only
visits `n < len(seq)`). -/
def num_n_bases (used : List FastqEntry) (n : Nat) : Nat :=
  used.countP (fun e => decide (n < e.seq.length ∧ e.seq.toList.getD n 'A' = 'N'))

/-- The value of `num_reads[n]` after the scanning loop: the number of
processed entries whose sequence reaches position `n`. -/
def num_reads_at (used : List FastqEntry) (n : Nat) : Nat :=
  used.countP (fun e => decide (n < e.seq.length))

/-- The largest observed sequence length among the processed entries.
The keys of the `num_reads` defaultdict are exactly the positions
`0 .. max_len used - 1`, so `max(num_reads.keys())` is
`max_len used - 1` (and raises `ValueError` when no position was ever
visited, i.e. when `max_len used = 0`). -/
def max_len (used : List FastqEntry) : Nat :=
  used.foldl (fun m e => max m e.seq.length) 0

/-- Embeds `QualityControl.get_seq_cycle_profile` (lines 150-185) on the
lines of a FASTQ file.  Entries are read through the modelled
`fastq_utils` reader; with `first_n_seqs = some k` the loop breaks once
`k` entries were processed, i.e. exactly the first `k` entries are
scanned.  The final loop `for base_pos in range(max(num_reads.keys()))`
(line 182) then emits one exact ratio
`num_n_bases[base_pos] / num_reads[base_pos]` per position strictly
below `max(num_reads.keys())`. -/
def get_seq_cycle_profile (lines : List String) (first_n_seqs : Option Nat) :
    Except PyError (List ℚ) :=
  match get_fastq_entries lines with
  | .error e => .error e
  | .ok fastq_entries =>
    let used := match first_n_seqs with
      | none => fastq_entries
      | some k => fastq_entries.take k
    if max_len used = 0 then
      .error (.valueError "max() arg is an empty sequence")
    else
      .ok ((List.range (max_len used - 1)).map
        (fun base_pos => (num_n_bases used base_pos : ℚ) / (num_reads_at used base_pos : ℚ)))

end QualityControl

/-- What `QCStats.compile_qc` reads from each sample object: its
`label`, `qc_header` and `qc_results`. -/
structure SampleQCView where
  label : String
  qc_header : List String
  qc_results : List (String × Nat)
deriving DecidableEq

namespace QCStats

/-- Embeds `QCStats.compile_qc` (lines 206-225).  With no samples it
prints an error and calls `sys.exit(1)`.  Otherwise it builds
`qc_header = [sample_header] + samples[0].qc_header` and enters the
loop over `samples`; the loop body's first statement,
`qc_entry[sample_header] = sample.label` (line 220), reads the
function-local `qc_entry` before its first assignment
(`qc_entry = sample.qc_results.copy()`, line 222), so the very first
iteration raises `UnboundLocalError` and no row is ever appended.
(Even were the loop repaired, line 224 `pandas.DataFrame(qc_stats)`
reads the unbound global `qc_stats` — the attribute is
`self.qc_stats` — and would raise `NameError`; both lines are
unreachable as the source stands.)  The success type records the rows
a completed run would have produced. -/
def compile_qc (samples : List SampleQCView) (sample_header : String) :
    Except PyError (List (List (String × String))) :=
  if samples.length = 0 then
    .error (.systemExit 1)
  else
    let _qc_header := [sample_header] ++ ((samples.headD ⟨"", [], []⟩).qc_header)
    .error (.unboundLocalError "qc_entry")

/-- Rendering of the combined table written by
`self.qc_stats.to_csv(output_filename, sep="\t", index=False)`
(lines 228-231): tab-separated rows. -/
def renderTable (rows : List (List (String × String))) : String :=
  String.intercalate "\n" (rows.map (fun row => String.intercalate "\t" (row.map (fun kv => kv.2))))

/-- Embeds `QCStats.output_qc` (lines 197-203): run `compile_qc` on the
stored samples (with the default `sample_header="sample"`), then write
the combined table with `to_csv`.  A `compile_qc` failure propagates
before anything is written, leaving the file system unchanged. -/
def output_qc (samples : List SampleQCView) (output_filename : String) (fs : FS) :
    Except PyError Unit × FS :=
  match compile_qc samples "sample" with
  | .error e => (.error e, fs)
  | .ok rows => (.ok (), fsWrite fs output_filename (renderTable rows))

end QCStats

/-! Concrete sample data used by the counterexamples and witnesses. -/

/-- Lines of a FASTQ file with a single entry whose sequence is `"NA"`:
an unresolvable base at position 0 and a resolved base at position 1,
so the longest observed read length is 2. -/
def fastqNA : List String := ["@r1", "NA", "+", "II"]

/-- A BAM file whose reference list contains `"chrRibo"` and whose three
records include two with the duplicate read identifier `"A"`, both on
`chrRibo`. -/
def bamEx : BamFile :=
  ⟨["chrRibo", "chr1"], [⟨"A", "chrRibo"⟩, ⟨"A", "chrRibo"⟩, ⟨"B", "chr1"⟩]⟩

/-- A sample labelled `"A"` with the one-entry reads file and the BAM
file above. -/
def sampleEx : Sample := ⟨"A", fastqNA, bamEx⟩

/-- A fresh `QualityControl` state for `sampleEx` with QC output
directory `"qcdir"`. -/
def stEx : QCState := initQC sampleEx "qcdir"

/-- A file system on which `stEx`'s canonical QC output path
`qcdir/A/A.qc.txt` already holds a file. -/
def fsEx : FS := [("qcdir/A/A.qc.txt", "old-contents")]

/-- A `compile_qc` view of one fully computed sample. -/
def sampleViewEx : SampleQCView :=
  ⟨"A", ["num_reads", "num_mapped", "num_ribo"],
   [("num_reads", 1), ("num_mapped", 2), ("num_ribo", 2)]⟩

/-- A BAM file realizing the claim's example: records for read
identifiers A, A, B, C, with A appearing twice. -/
def bamDup : BamFile :=
  ⟨["chr1"], [⟨"A", "chr1"⟩, ⟨"A", "chr1"⟩, ⟨"B", "chr1"⟩, ⟨"C", "chr1"⟩]⟩

/-- A `QualityControl` state over `bamDup`. -/
def stDup : QCState := initQC ⟨"D", [], bamDup⟩ "qcdir"

/-- A `QualityControl` state whose sample has an empty reads file. -/
def stEmptyReads : QCState := initQC ⟨"E", [], bamEx⟩ "qcdir"

/-- The state of a `QualityControl` object whose sample's alignment
file has one extra record `r` appended. -/
def appendRead (st : QCState) (r : BamRead) : QCState :=
  { st with sample := { st.sample with
      bam := { st.sample.bam with reads := st.sample.bam.reads ++ [r] } } }

/-- The state produced by a successful `compute_qc` on `stEx`. -/
def stExAfter : QCState :=
  { stEx with
    num_reads := some 1
    num_mapped := some 2
    num_ribo := some 2
    qc_header := ["num_reads", "num_mapped", "num_ribo"]
    qc_results := [("num_reads", 1), ("num_mapped", 2), ("num_ribo", 2)] }

/-! Claims. -/

/-- Claim C1 (code bug): `QCStats.compile_qc` on a non-empty sample
sequence never builds any row: its loop body reads the local
`qc_entry` before the local's first assignment, so the first iteration
raises `UnboundLocalError` instead of producing a table whose rows
carry each sample's label and metric values. -/
theorem compile_qc_nonempty_reads_unbound_qc_entry :
    QCStats.compile_qc [sampleViewEx] "sample"
      = .error (.unboundLocalError "qc_entry") := by
  decide

/-- Claim C2 (code bug): on the one-entry FASTQ file `fastqNA`, whose
longest read has length 2, `get_seq_cycle_profile` returns a profile
of length 1 — the position-0 ratio 1/1 only — because the final loop
ranges over `range(max(num_reads.keys()))`, dropping the last
position; the claim's stated length (the maximum observed read
length, here 2) is off by one from the code. -/
theorem seq_cycle_profile_drops_last_position :
    QualityControl.get_seq_cycle_profile fastqNA none = .ok [(1 : ℚ)] ∧
    (QualityControl.get_seq_cycle_profile fastqNA none).map List.length = .ok 1 ∧
    QualityControl.max_len [⟨"@r1", "NA", "+", "II"⟩] = 2 := by
  have hp : QualityControl.get_seq_cycle_profile fastqNA none = .ok [(1 : ℚ)] := by
    have he : get_fastq_entries fastqNA = .ok [⟨"@r1", "NA", "+", "II"⟩] := by decide
    have h1 : QualityControl.num_n_bases [⟨"@r1", "NA", "+", "II"⟩] 0 = 1 := by decide
    have h2 : QualityControl.num_reads_at [⟨"@r1", "NA", "+", "II"⟩] 0 = 1 := by decide
    have hm : QualityControl.max_len [⟨"@r1", "NA", "+", "II"⟩] = 2 := by decide
    have hr : List.range 1 = [0] := by decide
    simp [QualityControl.get_seq_cycle_profile, he, hm, h1, h2, hr]
  exact ⟨hp, by rw [hp]; rfl, by decide⟩


lemma dict_insert_toFinset (d : List String) (k : String) :
    (QualityControl.dict_insert d k).toFinset = insert k d.toFinset := by
  unfold QualityControl.dict_insert
  by_cases h : k ∈ d
  · simp only [if_pos h]
    exact (Finset.insert_eq_self.mpr (List.mem_toFinset.mpr h)).symm
  · simp only [if_neg h, List.toFinset_append, List.toFinset_cons, List.toFinset_nil]
    ext x
    simp only [Finset.mem_union, Finset.mem_insert, List.mem_toFinset, Finset.not_mem_empty,
      or_false]
    tauto

lemma dict_insert_nodup (d : List String) (k : String) (h : d.Nodup) :
    (QualityControl.dict_insert d k).Nodup := by
  unfold QualityControl.dict_insert
  by_cases hk : k ∈ d
  · simpa [hk]
  · simp [hk, List.nodup_append, h]

lemma foldl_dict_insert_nodup (ks : List String) (d : List String) (h : d.Nodup) :
    (ks.foldl QualityControl.dict_insert d).Nodup := by
  induction ks generalizing d with
  | nil => exact h
  | cons k ks ih => exact ih _ (dict_insert_nodup _ _ h)

lemma foldl_dict_insert_toFinset (ks : List String) (d : List String) :
    (ks.foldl QualityControl.dict_insert d).toFinset = d.toFinset ∪ ks.toFinset := by
  induction ks generalizing d with
  | nil => simp
  | cons k ks ih =>
    simp only [List.foldl_cons, ih, dict_insert_toFinset, List.toFinset_cons]
    ext x
    simp only [Finset.mem_union, Finset.mem_insert]
    tauto

lemma toFinset_card_eq_length_iff (l : List String) :
    l.toFinset.card = l.length ↔ l.Nodup := by
  constructor
  · intro h
    rw [List.card_toFinset] at h
    have hs : l.dedup.Sublist l := List.dedup_sublist l
    have he : l.dedup = l := hs.eq_of_length h
    rw [← he]
    exact List.nodup_dedup l
  · exact List.toFinset_card_of_nodup

lemma get_num_mapped_eq_card (st : QCState) :
    (QualityControl.get_num_mapped st).1
      = (st.sample.bam.reads.map (fun r => r.qname)).toFinset.card := by
  unfold QualityControl.get_num_mapped
  have hfold : st.sample.bam.reads.foldl (fun d r => QualityControl.dict_insert d r.qname) []
      = (st.sample.bam.reads.map (fun r => r.qname)).foldl QualityControl.dict_insert [] :=
    (List.foldl_map _ _ _ _).symm
  simp only [hfold]
  have hn := foldl_dict_insert_nodup (st.sample.bam.reads.map (fun r => r.qname)) [] (by simp)
  have hf := foldl_dict_insert_toFinset (st.sample.bam.reads.map (fun r => r.qname)) []
  rw [← List.toFinset_card_of_nodup hn, hf]
  simp

/-- Claim C4: `get_num_mapped` returns the number of distinct read
identifiers (`qname`, compared exactly) among the BAM records, so it
is at most the total record count, with equality exactly when all
records carry distinct read identifiers; on records with identifiers
A, A, B, C it returns 3. -/
theorem get_num_mapped_counts_unique_qnames (st : QCState) :
    (QualityControl.get_num_mapped st).1
        = (st.sample.bam.reads.map (fun r => r.qname)).toFinset.card ∧
    (QualityControl.get_num_mapped st).1 ≤ st.sample.bam.reads.length ∧
    ((QualityControl.get_num_mapped st).1 = st.sample.bam.reads.length ↔
        (st.sample.bam.reads.map (fun r => r.qname)).Nodup) ∧
    (QualityControl.get_num_mapped stDup).1 = 3 := by
  have hcard := get_num_mapped_eq_card st
  refine ⟨hcard, ?_, ?_, by decide⟩
  · calc (QualityControl.get_num_mapped st).1
        = (st.sample.bam.reads.map (fun r => r.qname)).toFinset.card := hcard
      _ ≤ (st.sample.bam.reads.map (fun r => r.qname)).length := List.toFinset_card_le _
      _ = st.sample.bam.reads.length := List.length_map _ _
  · rw [hcard]
    rw [show st.sample.bam.reads.length
        = (st.sample.bam.reads.map (fun r => r.qname)).length from (List.length_map _ _).symm]
    exact toFinset_card_eq_length_iff _

lemma foldl_count {α : Type} (l : List α) (n : Nat) :
    l.foldl (fun m _ => m + 1) n = n + l.length := by
  induction l generalizing n with
  | nil => simp
  | cons a l ih =>
    simp only [List.foldl_cons, ih, List.length_cons]
    omega

lemma get_fastq_entries_wellformed (k : Nat) :
    ∀ lines : List String, lines.length = 4 * k →
      ∃ es : List FastqEntry, get_fastq_entries lines = .ok es ∧ es.length = k := by
  induction k with
  | zero =>
    intro lines h
    have hnil : lines = [] := List.eq_nil_of_length_eq_zero (by omega)
    subst hnil
    exact ⟨[], rfl, rfl⟩
  | succ k ih =>
    intro lines h
    rcases lines with _ | ⟨a, _ | ⟨b, _ | ⟨c, _ | ⟨d, rest⟩⟩⟩⟩
    · simp at h
    · simp at h; omega
    · simp at h; omega
    · simp at h; omega
    · have hr : rest.length = 4 * k := by simp at h; omega
      obtain ⟨es, hes, hlen⟩ := ih rest hr
      exact ⟨⟨a, b, c, d⟩ :: es, by simp [get_fastq_entries, hes], by simp [hlen]⟩

/-- Claim C5: on a well-formed read file — one whose line count is a
multiple of 4, so that it parses as consecutive 4-line entry groups —
`get_num_reads` returns the number of groups and stores it into
`self.num_reads`; in particular an empty file yields 0 (see the
witness). -/
theorem get_num_reads_counts_groups (st : QCState)
    (h : st.sample.reads_lines.length % 4 = 0) :
    QualityControl.get_num_reads st
      = .ok (st.sample.reads_lines.length / 4,
             { st with num_reads := some (st.sample.reads_lines.length / 4) }) := by
  obtain ⟨es, hes, hlen⟩ := get_fastq_entries_wellformed (st.sample.reads_lines.length / 4)
      st.sample.reads_lines (by omega)
  unfold QualityControl.get_num_reads
  rw [hes]
  simp [foldl_count, hlen]


/-- Witness for claim C5: the empty read file yields 0 reads, and the
4-line file `fastqNA` yields 1 read. -/
theorem get_num_reads_counts_groups_witness :
    QualityControl.get_num_reads stEmptyReads
        = .ok (0, { stEmptyReads with num_reads := some 0 }) ∧
    QualityControl.get_num_reads stEx = .ok (1, { stEx with num_reads := some 1 }) := by
  constructor
  · exact get_num_reads_counts_groups stEmptyReads (by decide)
  · exact get_num_reads_counts_groups stEx (by decide)


/-- Claim C6: for a region name present in the alignment file's
reference list, `get_num_ribo` returns the count of all records whose
reference name equals the region (whole contig, no start/end bound),
without deduplicating by read identifier: appending any further record
on that region — even one whose read identifier duplicates an existing
record's — increases the count by exactly one. -/
theorem get_num_ribo_counts_region_records (st : QCState) (region : String)
    (h : region ∈ st.sample.bam.references) :
    QualityControl.get_num_ribo st region
        = .ok ((st.sample.bam.reads.filter (fun r => r.rname = region)).length, st) ∧
    ∀ r : BamRead, r.rname = region →
      QualityControl.get_num_ribo (appendRead st r) region
        = .ok ((st.sample.bam.reads.filter (fun x => x.rname = region)).length + 1,
               appendRead st r) := by
  constructor
  · unfold QualityControl.get_num_ribo fetch
    simp [h, foldl_count]
  · intro r hr
    unfold QualityControl.get_num_ribo fetch appendRead
    simp [h, foldl_count, List.filter_append, hr]

/-- Witness for claim C6: on `bamEx` the region `chrRibo` holds two
records (read identifiers A and A — the duplicate counts twice), and
appending a third `chrRibo` record with the already-seen identifier A
raises the count to 3. -/
theorem get_num_ribo_counts_region_records_witness :
    QualityControl.get_num_ribo stEx "chrRibo" = .ok (2, stEx) ∧
    QualityControl.get_num_ribo (appendRead stEx ⟨"A", "chrRibo"⟩) "chrRibo"
        = .ok (3, appendRead stEx ⟨"A", "chrRibo"⟩) := by
  have h := get_num_ribo_counts_region_records stEx "chrRibo" (by decide)
  refine ⟨?_, ?_⟩
  · have h1 := h.1
    rw [show (stEx.sample.bam.reads.filter (fun r => r.rname = "chrRibo")).length = 2
        from by decide] at h1
    exact h1
  · have h2 := h.2 ⟨"A", "chrRibo"⟩ rfl
    rw [show (stEx.sample.bam.reads.filter (fun x => x.rname = "chrRibo")).length = 2
        from by decide] at h2
    exact h2

/-- Claim C9: a successful `get_num_ribo` call leaves the whole state —
in particular the sample's alignment file — unchanged, and running it
a second time on that same state with the same region name yields the
identical result. -/
theorem get_num_ribo_idempotent_no_mutation (st : QCState) (chr_ribo : String)
    (n : Nat) (st' : QCState)
    (h : QualityControl.get_num_ribo st chr_ribo = .ok (n, st')) :
    st' = st ∧ QualityControl.get_num_ribo st' chr_ribo = .ok (n, st') := by
  unfold QualityControl.get_num_ribo at h ⊢
  cases hf : fetch st.sample.bam chr_ribo with
  | error e => rw [hf] at h; cases h
  | ok ribo_reads =>
    rw [hf] at h
    have hn : ribo_reads.foldl (fun n _ => n + 1) 0 = n ∧ st = st' := by
      simpa using h
    obtain ⟨hn1, hn2⟩ := hn
    subst hn2
    rw [hf]
    simp [hn1]

/-- Witness for claim C9: on `stEx` the call returns 2 with the state
unchanged, and so does a second call. -/
theorem get_num_ribo_idempotent_no_mutation_witness :
    stEx = stEx ∧ QualityControl.get_num_ribo stEx "chrRibo" = .ok (2, stEx) :=
  get_num_ribo_idempotent_no_mutation stEx "chrRibo" 2 stEx (by decide)

/-- Claim C10: `get_num_ribo` only returns its count — the state, and
in particular the `num_ribo` field, keeps its prior value — whereas
`get_num_reads` stores its result into `num_reads` and
`get_num_mapped` stores its result into `num_mapped` before returning
it. -/
theorem get_num_ribo_does_not_store (st : QCState) (chr_ribo : String) :
    (∀ n st', QualityControl.get_num_ribo st chr_ribo = .ok (n, st') →
        st' = st ∧ st'.num_ribo = st.num_ribo) ∧
    (∀ n st', QualityControl.get_num_reads st = .ok (n, st') →
        st' = { st with num_reads := some n }) ∧
    (QualityControl.get_num_mapped st).2
        = { st with num_mapped := some (QualityControl.get_num_mapped st).1 } := by
  refine ⟨?_, ?_, rfl⟩
  · intro n st' h
    unfold QualityControl.get_num_ribo at h
    cases hf : fetch st.sample.bam chr_ribo with
    | error e => rw [hf] at h; cases h
    | ok ribo_reads =>
      rw [hf] at h
      have : ribo_reads.foldl (fun n _ => n + 1) 0 = n ∧ st = st' := by simpa using h
      rw [← this.2]
      exact ⟨rfl, rfl⟩
  · intro n st' h
    unfold QualityControl.get_num_reads at h
    cases hf : get_fastq_entries st.sample.reads_lines with
    | error e => rw [hf] at h; cases h
    | ok es =>
      rw [hf] at h
      have : es.foldl (fun n _ => n + 1) 0 = n
          ∧ { st with num_reads := some (es.foldl (fun n _ => n + 1) 0) } = st' := by
        simpa using h
      rw [← this.2, this.1]

/-- Witness for claim C10: concrete runs on `stEx`. -/
theorem get_num_ribo_does_not_store_witness :
    (stEx = stEx ∧ stEx.num_ribo = stEx.num_ribo) ∧
    ({ stEx with num_reads := some 1 } = { stEx with num_reads := some 1 }) ∧
    (QualityControl.get_num_mapped stEx).2
        = { stEx with num_mapped := some (QualityControl.get_num_mapped stEx).1 } := by
  have h := get_num_ribo_does_not_store stEx "chrRibo"
  exact ⟨h.1 2 stEx (by decide),
         h.2.1 1 { stEx with num_reads := some 1 } (by decide),
         h.2.2⟩

lemma get_num_reads_state (st : QCState) (n : Nat) (st' : QCState)
    (h : QualityControl.get_num_reads st = .ok (n, st')) :
    st' = { st with num_reads := some n } := by
  unfold QualityControl.get_num_reads at h
  cases hf : get_fastq_entries st.sample.reads_lines with
  | error e => rw [hf] at h; cases h
  | ok es =>
    rw [hf] at h
    have hh : es.foldl (fun n _ => n + 1) 0 = n
        ∧ { st with num_reads := some (es.foldl (fun n _ => n + 1) 0) } = st' := by
      simpa using h
    rw [← hh.2, hh.1]

lemma mem_keys_dinsert (d : List (String × Nat)) (k0 : String) (v : Nat) (k : String) :
    k ∈ (QualityControl.dinsert d k0 v).map Prod.fst ↔ k ∈ d.map Prod.fst ∨ k = k0 := by
  unfold QualityControl.dinsert
  by_cases h : d.any (fun p => p.1 = k0) = true
  · have hk0 : k0 ∈ d.map Prod.fst := by
      simp only [List.any_eq_true, decide_eq_true_eq] at h
      obtain ⟨p, hp, he⟩ := h
      exact List.mem_map.mpr ⟨p, hp, he⟩
    have hkeys : (d.map (fun p => if p.1 = k0 then (k0, v) else p)).map Prod.fst
        = d.map Prod.fst := by
      rw [List.map_map]
      apply List.map_congr_left
      intro p _
      by_cases hp1 : p.1 = k0
      · simp [hp1]
      · simp [hp1]
    rw [if_pos h, hkeys]
    constructor
    · exact Or.inl
    · rintro (h1 | rfl)
      · exact h1
      · exact hk0
  · rw [if_neg h]
    simp

/-- Claim C8: whenever `compute_qc` succeeds, the resulting state's
ordered field list is exactly `["num_reads", "num_mapped",
"num_ribo"]` and the key set of its `qc_results` mapping coincides
with that header (assuming, as holds for a fresh object and for any
state a prior compute produced, that no extraneous key was already in
the mapping). -/
theorem compute_qc_header_and_keys (st : QCState) (res : List (String × Nat)) (st' : QCState)
    (hsub : ∀ k ∈ st.qc_results.map Prod.fst,
        k ∈ (["num_reads", "num_mapped", "num_ribo"] : List String))
    (h : QualityControl.compute_qc st = .ok (res, st')) :
    st'.qc_header = ["num_reads", "num_mapped", "num_ribo"] ∧
    (st'.qc_results.map Prod.fst).toFinset = st'.qc_header.toFinset := by
  unfold QualityControl.compute_qc at h
  cases hr : QualityControl.get_num_reads st with
  | error e => rw [hr] at h; cases h
  | ok p =>
    obtain ⟨nr, st1⟩ := p
    rw [hr] at h
    have hst1 := get_num_reads_state st nr st1 hr
    subst hst1
    simp only [QualityControl.get_num_mapped] at h
    unfold QualityControl.get_num_ribo at h
    cases hf : fetch st.sample.bam "chrRibo" with
    | error e => rw [hf] at h; cases h
    | ok ribo_reads =>
      rw [hf] at h
      simp only [Except.ok.injEq, Prod.mk.injEq] at h
      obtain ⟨hres, hst'⟩ := h
      subst hst'
      refine ⟨rfl, ?_⟩
      ext k
      simp only [List.mem_toFinset, mem_keys_dinsert]
      constructor
      · rintro (((hk | h1) | h2) | h3)
        · exact hsub k hk
        · simp [h1]
        · simp [h2]
        · simp [h3]
      · intro hk
        simp only [List.mem_cons, List.not_mem_nil, or_false] at hk
        rcases hk with h1 | h1 | h1
        · exact Or.inl (Or.inl (Or.inr h1))
        · exact Or.inl (Or.inr h1)
        · exact Or.inr h1


/-- Witness for claim C8: computing QC on the fresh state `stEx`
(whose `qc_results` starts empty) succeeds and yields the literal
header with a matching key set. -/
theorem compute_qc_header_and_keys_witness :
    stExAfter.qc_header = ["num_reads", "num_mapped", "num_ribo"] ∧
    (stExAfter.qc_results.map Prod.fst).toFinset = stExAfter.qc_header.toFinset :=
  compute_qc_header_and_keys stEx
    [("num_reads", 1), ("num_mapped", 2), ("num_ribo", 2)] stExAfter
    (by decide) (by decide)

/-- Claim C3 (code bug): when a file already exists at the sample's
canonical QC output path, `QualityControl.output_qc` is not a silent
no-op: the skip branch's `print` reads the undefined bare name
`qc_filename` (the attribute is `self.qc_filename`), so the call
raises `NameError` instead of returning `None`.  The existing file's
contents are nevertheless left unchanged byte-for-byte (the returned
file system equals the input one), and `self.qc_filename` has been
set. -/
theorem output_qc_existing_file_raises :
    QualityControl.output_qc stEx fsEx
      = (.error (.nameError "qc_filename"),
         { stEx with qc_filename := some "qcdir/A/A.qc.txt" }, fsEx) := by
  decide

/-- Claim C7: `QCStats.compile_qc` on an empty sample sequence fails
(`sys.exit(1)` after an error message, the source's realization of an
EmptyInputError), and `QCStats.output_qc` on an empty sample sequence
propagates that failure with the file system unchanged — no output
file, not even an empty table, is written. -/
theorem compile_qc_empty_input_exits (output_filename : String) (fs : FS) :
    QCStats.compile_qc ([] : List SampleQCView) "sample" = .error (.systemExit 1) ∧
    QCStats.output_qc ([] : List SampleQCView) output_filename fs
      = (.error (.systemExit 1), fs) :=
  ⟨rfl, rfl⟩

end RnaSeqLib
